import Mathlib

/-!
Shallow embedding of the seasonality analyzer in
`src/stock_seasonality_analysis.py`.

Modelling conventions:
* Prices are exact rationals (`ℚ`); the Python floats are abstracted to exact
  arithmetic, which preserves all comparisons and formulas stated by the spec.
* A `DailyBar` carries its calendar date components; `PriceSeries` is a list of
  bars ordered as the provider returns them (the DataFrame row order).
* The provider `yf.download` is modelled as a function
  `fetch : String → Except String (List DailyBar)`: `Except.error` models a
  raised exception, `Except.ok []` models an empty DataFrame.
* `end_date = pd.to_datetime("today").normalize()` and
  `start_date = end_date - pd.DateOffset(years=years)`: `DateOffset(years=y)`
  shifts the year component by `y` (clamping only the day, never the year), so
  `start_date.year = today.year - years`; the embedding passes the year
  components, which is all the analysis loop reads from the two dates.
-/

/-- One trading day of one instrument: date components plus open/close price
(the `Open` and `Close` columns of the downloaded DataFrame). -/
structure DailyBar where
  year : Int
  month : Nat
  day : Nat
  Open : ℚ
  Close : ℚ
  deriving DecidableEq, Repr

/-- `range(start_date.year, end_date.year + 1)` from line 43: the years from
`start_year` to `end_year` inclusive, empty when `start_year > end_year`. -/
def year_range (start_year end_year : Int) : List Int :=
  (List.range (end_year + 1 - start_year).toNat).map (fun i => start_year + i)

/-- Lines 44-47: `data[(data.index.month == month_num) & (data.index.year == year)]`,
the (year, month) bucket of the series. -/
def month_data (data : List DailyBar) (month_num : Nat) (year : Int) : List DailyBar :=
  data.filter (fun b => b.month == month_num && b.year == year)

/-- Line 52: `float(month_data["Open"].iloc[0])` (0 when the bucket is empty;
the caller only uses this on non-empty buckets). -/
def first_open (md : List DailyBar) : ℚ :=
  (md.head?.map DailyBar.Open).getD 0

/-- Line 53: `float(month_data["Close"].iloc[-1])`. -/
def last_close (md : List DailyBar) : ℚ :=
  (md.getLast?.map DailyBar.Close).getD 0

/-- Lines 49-55, body of the per-year loop: skip the bucket when it is empty or
has fewer than 5 bars, otherwise contribute `(end_price - start_price) / start_price`. -/
def bucket_return (md : List DailyBar) : Option ℚ :=
  if md.isEmpty || md.length < 5 then none
  else some ((last_close md - first_open md) / first_open md)

/-- Lines 41-55: the `monthly_returns` list collected for one calendar month
over all years of the window. -/
def month_returns (data : List DailyBar) (start_year end_year : Int)
    (month_num : Nat) : List ℚ :=
  (year_range start_year end_year).filterMap
    (fun year => bucket_return (month_data data month_num year))

/-- The two per-month statistics entered into `ticker_results`. -/
structure MonthStat where
  avg_return : ℚ
  hit_rate : ℚ
  deriving DecidableEq, Repr

/-- Lines 57-63: `avg_return = series.mean() * 100`,
`hit_rate = (series.gt(0).sum() / len(series)) * 100`, both `0.0` when
`monthly_returns` is empty. -/
def month_stat (monthly_returns : List ℚ) : MonthStat :=
  if monthly_returns.isEmpty then { avg_return := 0, hit_rate := 0 }
  else
    { avg_return := (monthly_returns.sum / monthly_returns.length) * 100,
      hit_rate :=
        ((monthly_returns.countP (fun r => decide (0 < r)) : ℚ) /
          monthly_returns.length) * 100 }

/-- Line 11: `list(month_abbr)[1:]`. -/
def MONTH_NAMES : List String :=
  ["Jan", "Feb", "Mar", "Apr", "May", "Jun", "Jul", "Aug", "Sep", "Oct", "Nov", "Dec"]

/-- Lines 40-66: the `ticker_results` dictionary minus its `"Ticker"` key, as an
association list from column name to value, built month by month
(`enumerate(MONTH_NAMES, start=1)` gives `month_num = index + 1`). -/
def ticker_row (data : List DailyBar) (start_year end_year : Int) :
    List (String × ℚ) :=
  MONTH_NAMES.enum.flatMap (fun p =>
    let st := month_stat (month_returns data start_year end_year (p.1 + 1))
    [(p.2 ++ " Avg. Rtn (%)", st.avg_return),
     (p.2 ++ " Hit Rate (%)", st.hit_rate)])

/-- One element of `all_results`: the ticker plus its 24 statistic columns. -/
structure TickerResult where
  ticker : String
  row : List (String × ℚ)
  deriving DecidableEq, Repr

/-- Lines 30-70, the per-ticker loop of `analyze_all_months_performance`.
`fetch t = Except.error e` models `yf.download` raising: the exception
propagates out of the loop (there is no per-ticker handler in the source), so
the whole call fails. `data.empty` leads to `continue`. -/
def analyze_tickers (fetch : String → Except String (List DailyBar))
    (start_year end_year : Int) : List String → Except String (List TickerResult)
  | [] => Except.ok []
  | t :: ts =>
    match fetch t with
    | Except.error e => Except.error e
    | Except.ok data =>
      match analyze_tickers fetch start_year end_year ts with
      | Except.error e => Except.error e
      | Except.ok rest =>
        if data.isEmpty then Except.ok rest
        else Except.ok ({ ticker := t, row := ticker_row data start_year end_year } :: rest)

/-- Lines 26-70: `analyze_all_months_performance(tickers, years)`, with
`today_year` the year component of the normalized "today" date, so that
`start_date.year = today_year - years`. -/
def analyze_all_months_performance (fetch : String → Except String (List DailyBar))
    (tickers : List String) (years : Int) (today_year : Int) :
    Except String (List TickerResult) :=
  analyze_tickers fetch (today_year - years) today_year tickers

/-- Line 95: `df.round(2)` on one value (ties-at-half are abstracted from the
binary-float bankers rounding; no claim depends on tie behaviour). -/
def round2 (x : ℚ) : ℚ :=
  (round (x * 100) : ℤ) / 100

/-- Lines 98-101: the fixed interleaved column layout. -/
def ordered_columns : List String :=
  MONTH_NAMES.flatMap (fun month => [month ++ " Avg. Rtn (%)", month ++ " Hit Rate (%)"])

/-- Lines 94-103 of `run_analysis` (reached only when `df` is non-empty):
`df.set_index("Ticker")`, `df.round(2)`, `df.sort_index()`,
`df = df[ordered_columns]`. A finalized row is the ticker (the index) paired
with its values in the fixed column order; rows are sorted by ticker. -/
def finalize_table (results : List TickerResult) : List (String × List ℚ) :=
  (results.map (fun r =>
    (r.ticker, ordered_columns.map (fun c => round2 ((r.row.lookup c).getD 0))))).mergeSort
    (fun a b => decide (a.1 ≤ b.1))

/-- Spec-side reference (§4.3 of the spec, written from its words, to be
compared with the code-side `month_returns`): for each year of the window keep
the bucket only when it is valid (at least 5 bars), and collect
`(close_of_last_bar - open_of_first_bar) / open_of_first_bar` of each valid
bucket. -/
def spec_valid_returns (data : List DailyBar) (start_year end_year : Int)
    (month_num : Nat) : List ℚ :=
  ((year_range start_year end_year).filter
      (fun y => decide (5 ≤ (month_data data month_num y).length))).map
    (fun y =>
      (last_close (month_data data month_num y) - first_open (month_data data month_num y)) /
        first_open (month_data data month_num y))

/-- Spec-side reference (§4.3): empty sequence gives `(0, 0)`; otherwise the
average is `mean * 100` and the hit rate counts strictly-positive returns. -/
def spec_month_stat (seq : List ℚ) : MonthStat :=
  if seq = [] then { avg_return := 0, hit_rate := 0 }
  else
    { avg_return := (seq.sum / seq.length) * 100,
      hit_rate := (((seq.filter (fun r => decide (0 < r))).length : ℚ) / seq.length) * 100 }

/-! ## Helper lemmas (shared by several claim theorems) -/

/-- A `filterMap` whose function is a guard-then-transform is a `filter`
followed by a `map`. -/
theorem filterMap_guard_eq_map_filter {α β : Type} (f : α → Option β)
    (p : α → Bool) (g : α → β)
    (h : ∀ a, f a = if p a then some (g a) else none) (l : List α) :
    l.filterMap f = (l.filter p).map g := by
  induction l with
  | nil => simp
  | cons a l ih =>
    rw [List.filterMap_cons, List.filter_cons, h a]
    by_cases hp : p a <;> simp [hp, ih]

/-- `bucket_return` in guard form: the `isEmpty` test of line 49 is subsumed by
the 5-bar test. -/
theorem bucket_return_eq_guard (md : List DailyBar) :
    bucket_return md =
      if 5 ≤ md.length then
        some ((last_close md - first_open md) / first_open md)
      else none := by
  unfold bucket_return
  by_cases h5 : 5 ≤ md.length
  · have h1 : ¬ md.length < 5 := Nat.not_lt.mpr h5
    have h2 : md.isEmpty = false := by
      cases md with
      | nil => simp at h5
      | cons a l => rfl
    simp [h1, h2, h5]
  · have h1 : md.length < 5 := Nat.lt_of_not_le h5
    simp [h1, h5]

/-- The collected `monthly_returns` list is exactly the valid (≥ 5 bar) buckets
of the window, each mapped to its first-open/last-close return. -/
theorem month_returns_filter_map (data : List DailyBar) (sy ey : Int) (m : Nat) :
    month_returns data sy ey m =
      ((year_range sy ey).filter
          (fun y => decide (5 ≤ (month_data data m y).length))).map
        (fun y =>
          (last_close (month_data data m y) - first_open (month_data data m y)) /
            first_open (month_data data m y)) := by
  unfold month_returns
  apply filterMap_guard_eq_map_filter
  intro y
  rw [bucket_return_eq_guard]
  by_cases h : 5 ≤ (month_data data m y).length <;> simp [h]

/-- A bucket presented as first bar, middle bars, last bar with at least 5 bars
yields the first-open/last-close return. -/
theorem bucket_return_decomp (md : List DailyBar) (f l : DailyBar)
    (mid : List DailyBar) (hb : md = (f :: mid) ++ [l]) (h5 : 5 ≤ md.length) :
    bucket_return md = some ((l.Close - f.Open) / f.Open) := by
  subst hb
  rw [bucket_return_eq_guard, if_pos h5]
  have hfirst : first_open ((f :: mid) ++ [l]) = f.Open := by
    simp [first_open]
  have hlast : last_close ((f :: mid) ++ [l]) = l.Close := by
    have h := List.getLast?_concat (a := l) (f :: mid)
    unfold last_close
    rw [h]
    rfl
  rw [hfirst, hlast]

/-- The code-side statistics agree with the spec-side reference formulas on
every sequence of returns. -/
theorem month_stat_eq_spec (rs : List ℚ) : month_stat rs = spec_month_stat rs := by
  unfold month_stat spec_month_stat
  by_cases h : rs = []
  · simp [h]
  · have hne : rs.isEmpty = false := by simp [h]
    simp [hne, h, List.countP_eq_length_filter]

/-- The code-side collected sequence is the spec-side sequence of valid
MonthlyReturns. -/
theorem month_returns_eq_spec_valid (data : List DailyBar) (sy ey : Int) (m : Nat) :
    month_returns data sy ey m = spec_valid_returns data sy ey m := by
  unfold spec_valid_returns
  exact month_returns_filter_map data sy ey m

/-! ## Claim theorems -/

/-- C3: for every (year, month) bucket of the series, a MonthlyReturn is
computed if and only if the bucket has at least 5 bars: the collected sequence
is exactly the ≥5-bar buckets mapped to their returns, and in particular the
sequence length — the average's and hit rate's denominator — counts exactly
the ≥5-bar buckets. -/
theorem month_returns_iff_five_bars (data : List DailyBar) (sy ey : Int) (m : Nat) :
    month_returns data sy ey m =
      ((year_range sy ey).filter
          (fun y => decide (5 ≤ (month_data data m y).length))).map
        (fun y =>
          (last_close (month_data data m y) - first_open (month_data data m y)) /
            first_open (month_data data m y)) ∧
    (month_returns data sy ey m).length =
      ((year_range sy ey).filter
          (fun y => decide (5 ≤ (month_data data m y).length))).length := by
  refine ⟨month_returns_filter_map data sy ey m, ?_⟩
  rw [month_returns_filter_map data sy ey m, List.length_map]

/-- C4: for every valid bucket (at least 5 bars), the MonthlyReturn is
`(close of last bar - open of first bar) / open of first bar`, for any middle
bars whatsoever. -/
theorem bucket_return_first_open_last_close (data : List DailyBar) (m : Nat)
    (y : Int) (f l : DailyBar) (mid : List DailyBar)
    (hb : month_data data m y = (f :: mid) ++ [l])
    (h5 : 5 ≤ (month_data data m y).length) :
    bucket_return (month_data data m y) = some ((l.Close - f.Open) / f.Open) :=
  bucket_return_decomp (month_data data m y) f l mid hb h5

/-- C5: the per-month statistics computed by the code equal the spec's
reference definition applied to the sequence of valid MonthlyReturns collected
over the years of the window. -/
theorem month_stat_refines_spec (data : List DailyBar) (sy ey : Int) (m : Nat) :
    month_stat (month_returns data sy ey m) =
      spec_month_stat (spec_valid_returns data sy ey m) := by
  rw [month_stat_eq_spec, month_returns_eq_spec_valid]

/-! ## Concrete data used by witnesses and counterexamples -/

/-- Five January-2025 bars with positive prices; return `(15 - 10) / 10`. -/
def demo_bars : List DailyBar :=
  [⟨2025, 1, 2, 10, 11⟩, ⟨2025, 1, 3, 11, 12⟩, ⟨2025, 1, 6, 12, 13⟩,
   ⟨2025, 1, 7, 13, 14⟩, ⟨2025, 1, 8, 14, 15⟩]

/-- Five January-2020 bars, the third with a non-positive close. -/
def jan2020_one_bad : List DailyBar :=
  [⟨2020, 1, 2, 10, 11⟩, ⟨2020, 1, 3, 11, 12⟩, ⟨2020, 1, 6, 12, -1⟩,
   ⟨2020, 1, 7, 13, 14⟩, ⟨2020, 1, 8, 14, 15⟩]

/-- The spec's §3 price invariant on one bar: positive open and close. -/
def valid_price_bar (b : DailyBar) : Bool :=
  decide (0 < b.Open) && decide (0 < b.Close)

/-- A provider raising on `"AAPL"` and succeeding elsewhere. -/
def bad_fetch : String → Except String (List DailyBar) :=
  fun t => if t = "AAPL" then Except.error "network error" else Except.ok demo_bars

/-- A provider returning an empty series for `"EMPTY"`, data elsewhere. -/
def empty_fetch : String → Except String (List DailyBar) :=
  fun t => if t = "EMPTY" then Except.ok [] else Except.ok demo_bars

/-- A provider that always succeeds with the same bars. -/
def demo_fetch : String → Except String (List DailyBar) :=
  fun _ => Except.ok demo_bars

/-- Witness for C4 at a concrete bucket. -/
theorem bucket_return_first_open_last_close_witness :
    bucket_return (month_data demo_bars 1 2025) = some (((15 : ℚ) - 10) / 10) :=
  bucket_return_first_open_last_close demo_bars 1 2025
    ⟨2025, 1, 2, 10, 11⟩ ⟨2025, 1, 8, 14, 15⟩
    [⟨2025, 1, 3, 11, 12⟩, ⟨2025, 1, 6, 12, 13⟩, ⟨2025, 1, 7, 13, 14⟩]
    (by decide) (by decide)

/-- C2 fails on the code: the claim says a bar with non-positive open or close
is treated as absent with the 5-bar threshold re-evaluated, i.e. the collected
returns should equal those over the price-valid bars only. On a January bucket
of 5 bars whose third close is -1 the claim predicts no return (only 4 valid
bars), but the code keeps all 5 bars and computes a return. -/
theorem invalid_bar_not_dropped_counterexample :
    month_returns jan2020_one_bad 2020 2020 1 ≠
      month_returns (jan2020_one_bad.filter valid_price_bar) 2020 2020 1 := by
  decide

/-- C2 amended: the code performs no price-validity filtering: a bar with
non-positive open or close counts toward the 5-bar threshold like any other
bar, and the return of a bucket containing such a bar is still computed from
the bucket's raw first open and last close. -/
theorem invalid_bar_used_as_is (data : List DailyBar) (m : Nat) (y : Int)
    (f l : DailyBar) (mid : List DailyBar)
    (hb : month_data data m y = (f :: mid) ++ [l])
    (h5 : 5 ≤ (month_data data m y).length)
    (_hinv : ∃ b ∈ month_data data m y, b.Open ≤ 0 ∨ b.Close ≤ 0) :
    bucket_return (month_data data m y) = some ((l.Close - f.Open) / f.Open) :=
  bucket_return_decomp (month_data data m y) f l mid hb h5

/-- Witness for the amended C2 on the bucket with one invalid bar. -/
theorem invalid_bar_used_as_is_witness :
    bucket_return (month_data jan2020_one_bad 1 2020) = some (((15 : ℚ) - 10) / 10) :=
  invalid_bar_used_as_is jan2020_one_bad 1 2020
    ⟨2020, 1, 2, 10, 11⟩ ⟨2020, 1, 8, 14, 15⟩
    [⟨2020, 1, 3, 11, 12⟩, ⟨2020, 1, 6, 12, -1⟩, ⟨2020, 1, 7, 13, 14⟩]
    (by decide) (by decide) (by decide)

/-- Hit-rate facts for an arbitrary sequence of returns. -/
theorem hit_rate_bounds_aux (rs : List ℚ) :
    0 ≤ (month_stat rs).hit_rate ∧ (month_stat rs).hit_rate ≤ 100 ∧
      ((month_stat rs).hit_rate = 0 → ∀ r ∈ rs, r ≤ 0) ∧
      ((month_stat rs).hit_rate = 100 → ∀ r ∈ rs, 0 < r) := by
  by_cases h : rs = []
  · subst h
    have e : (month_stat ([] : List ℚ)).hit_rate = 0 := rfl
    refine ⟨by rw [e], by rw [e]; norm_num, ?_, ?_⟩
    · intro _ r hr
      exact absurd hr (List.not_mem_nil r)
    · intro h100
      rw [e] at h100
      norm_num at h100
  · have hEmpty : rs.isEmpty = false := by simp [h]
    have hlen : 0 < rs.length := List.length_pos.mpr h
    have hnq : (0 : ℚ) < (rs.length : ℚ) := by exact_mod_cast hlen
    have hnz : ((rs.length : ℚ)) ≠ 0 := ne_of_gt hnq
    have hrw : (month_stat rs).hit_rate =
        ((rs.countP (fun r => decide (0 < r)) : ℚ) / (rs.length : ℚ)) * 100 := by
      simp [month_stat, hEmpty]
    have hcle : rs.countP (fun r => decide (0 < r)) ≤ rs.length :=
      List.countP_le_length (fun r => decide (0 < r))
    have hcq : (0 : ℚ) ≤ (rs.countP (fun r => decide (0 < r)) : ℚ) := by positivity
    refine ⟨?_, ?_, ?_, ?_⟩
    · rw [hrw]
      have := div_nonneg hcq (le_of_lt hnq)
      nlinarith
    · rw [hrw]
      have h1 : ((rs.countP (fun r => decide (0 < r)) : ℚ) / (rs.length : ℚ)) ≤ 1 := by
        rw [div_le_one hnq]
        exact_mod_cast hcle
      nlinarith
    · rw [hrw]
      intro h0 r hrm
      have hdiv : ((rs.countP (fun r => decide (0 < r)) : ℚ) / (rs.length : ℚ)) = 0 :=
        (mul_eq_zero.mp h0).resolve_right (by norm_num)
      have hc0 : (rs.countP (fun r => decide (0 < r)) : ℚ) = 0 :=
        (div_eq_zero_iff.mp hdiv).resolve_right hnz
      have hcn : rs.countP (fun r => decide (0 < r)) = 0 := by exact_mod_cast hc0
      have hnotpos := List.countP_eq_zero.mp hcn r hrm
      exact le_of_not_lt (by simpa using hnotpos)
    · rw [hrw]
      intro h100 r hrm
      have h1 : ((rs.countP (fun r => decide (0 < r)) : ℚ) / (rs.length : ℚ)) * 100 =
          1 * 100 := by rw [h100]; norm_num
      have hdiv : ((rs.countP (fun r => decide (0 < r)) : ℚ) / (rs.length : ℚ)) = 1 :=
        mul_right_cancel₀ (by norm_num : (100 : ℚ) ≠ 0) h1
      have hc : (rs.countP (fun r => decide (0 < r)) : ℚ) = (rs.length : ℚ) :=
        (div_eq_one_iff_eq hnz).mp hdiv
      have hcn : rs.countP (fun r => decide (0 < r)) = rs.length := by exact_mod_cast hc
      have hpos := List.countP_eq_length.mp hcn r hrm
      simpa using hpos

/-- C9: the hit rate lies in [0, 100]; it is 0 only when no collected return is
strictly positive and 100 only when every collected return is strictly
positive. -/
theorem hit_rate_in_range (data : List DailyBar) (sy ey : Int) (m : Nat) :
    0 ≤ (month_stat (month_returns data sy ey m)).hit_rate ∧
      (month_stat (month_returns data sy ey m)).hit_rate ≤ 100 ∧
      ((month_stat (month_returns data sy ey m)).hit_rate = 0 →
        ∀ r ∈ month_returns data sy ey m, r ≤ 0) ∧
      ((month_stat (month_returns data sy ey m)).hit_rate = 100 →
        ∀ r ∈ month_returns data sy ey m, 0 < r) :=
  hit_rate_bounds_aux (month_returns data sy ey m)

/-- Witness for C9 at concrete data. -/
theorem hit_rate_in_range_witness :
    0 ≤ (month_stat (month_returns demo_bars 2025 2025 1)).hit_rate ∧
      (month_stat (month_returns demo_bars 2025 2025 1)).hit_rate ≤ 100 :=
  ⟨(hit_rate_in_range demo_bars 2025 2025 1).1,
   (hit_rate_in_range demo_bars 2025 2025 1).2.1⟩

/-- C1 fails on the code: `yf.download` is called with no per-ticker handler
(lines 32-36), so a provider error while fetching the first ticker aborts the
whole analysis; the remaining ticker `"MSFT"` (whose fetch would succeed) is
never processed and contributes no record. The claim predicts a result that
still contains `"MSFT"`'s record. -/
theorem fetch_error_aborts_counterexample :
    analyze_all_months_performance bad_fetch ["AAPL", "MSFT"] 15 2025 =
      Except.error "network error" := by
  rfl

/-- C1 amended: a provider error is not caught inside the analysis loop: as
soon as one ticker's fetch raises, the whole call fails with that error and no
remaining ticker is processed (only the GUI-level handler around the whole run
catches it). -/
theorem fetch_error_aborts (fetch : String → Except String (List DailyBar))
    (sy ey : Int) (pre : List String) (t : String) (post : List String)
    (e : String)
    (hpre : ∀ p ∈ pre, ∃ dp, fetch p = Except.ok dp)
    (herr : fetch t = Except.error e) :
    analyze_tickers fetch sy ey (pre ++ t :: post) = Except.error e := by
  induction pre with
  | nil =>
    simp only [List.nil_append, analyze_tickers, herr]
  | cons p ps ih =>
    obtain ⟨dp, hdp⟩ := hpre p (List.mem_cons_self p ps)
    have hrest := ih (fun q hq => hpre q (List.mem_cons_of_mem p hq))
    have hrest' : analyze_tickers fetch sy ey (ps.append (t :: post)) =
        Except.error e := hrest
    simp only [List.cons_append, analyze_tickers, hdp, hrest, hrest']

/-- Witness for the amended C1: a successful fetch before the failing one does
not save the run. -/
theorem fetch_error_aborts_witness :
    analyze_tickers bad_fetch 2010 2025 (["MSFT"] ++ "AAPL" :: ["TSLA"]) =
      Except.error "network error" :=
  fetch_error_aborts bad_fetch 2010 2025 ["MSFT"] "AAPL" ["TSLA"] "network error"
    (fun p hp => ⟨demo_bars, by
      rw [List.mem_singleton] at hp
      subst hp
      rfl⟩)
    (by rfl)

/-- C6: a ticker whose fetched series is empty contributes no record: whenever
the analysis returns a result list, no record in it belongs to a ticker whose
fetch returned the empty series. -/
theorem empty_series_dropped (fetch : String → Except String (List DailyBar))
    (sy ey : Int) (tickers : List String) (res : List TickerResult) (t : String)
    (hok : analyze_tickers fetch sy ey tickers = Except.ok res)
    (hempty : fetch t = Except.ok []) :
    ∀ r ∈ res, r.ticker ≠ t := by
  induction tickers generalizing res with
  | nil =>
    simp only [analyze_tickers] at hok
    cases hok
    intro r hr
    exact absurd hr (List.not_mem_nil r)
  | cons t' ts ih =>
    simp only [analyze_tickers] at hok
    cases hft : fetch t' with
    | error e =>
      simp only [hft] at hok
      cases hok
    | ok data =>
      simp only [hft] at hok
      cases hrec : analyze_tickers fetch sy ey ts with
      | error e =>
        simp only [hrec] at hok
        cases hok
      | ok rest =>
        simp only [hrec] at hok
        by_cases hd : data.isEmpty
        · rw [if_pos hd] at hok
          cases hok
          exact ih _ hrec
        · rw [if_neg hd] at hok
          cases hok
          intro r hr
          rcases List.mem_cons.mp hr with hh | ht
          · subst hh
            dsimp only
            intro hteq
            rw [hteq] at hft
            rw [hft] at hempty
            injection hempty with hdata
            subst hdata
            exact hd rfl
          · exact ih _ hrec r ht

/-- Witness for C6: with `"EMPTY"` fetching an empty series, the produced
record (for `"MSFT"`) is not `"EMPTY"`'s. -/
theorem empty_series_dropped_witness :
    ({ ticker := "MSFT", row := ticker_row demo_bars 2025 2025 } : TickerResult).ticker ≠
      "EMPTY" :=
  empty_series_dropped empty_fetch 2025 2025 ["EMPTY", "MSFT"]
    [{ ticker := "MSFT", row := ticker_row demo_bars 2025 2025 }] "EMPTY"
    (by rfl) (by rfl)
    { ticker := "MSFT", row := ticker_row demo_bars 2025 2025 }
    (List.mem_singleton.mpr rfl)

/-- C10: no deduplication of input symbols: when the analysis returns a result,
the number of records carrying symbol `s` equals the number of occurrences of
`s` in the input list (given `s` fetches a non-empty series), and every such
record is computed from `s`'s fetched series. -/
theorem no_dedup_per_occurrence (fetch : String → Except String (List DailyBar))
    (sy ey : Int) (tickers : List String) (res : List TickerResult)
    (s : String) (d : List DailyBar)
    (hres : analyze_tickers fetch sy ey tickers = Except.ok res)
    (hs : fetch s = Except.ok d) (hne : d ≠ []) :
    res.countP (fun r => r.ticker == s) = tickers.count s ∧
      ∀ r ∈ res, r.ticker = s → r.row = ticker_row d sy ey := by
  induction tickers generalizing res with
  | nil =>
    simp only [analyze_tickers] at hres
    cases hres
    refine ⟨by simp, ?_⟩
    intro r hr
    exact absurd hr (List.not_mem_nil r)
  | cons t ts ih =>
    simp only [analyze_tickers] at hres
    cases hft : fetch t with
    | error e =>
      simp only [hft] at hres
      cases hres
    | ok data =>
      simp only [hft] at hres
      cases hrec : analyze_tickers fetch sy ey ts with
      | error e =>
        simp only [hrec] at hres
        cases hres
      | ok rest =>
        simp only [hrec] at hres
        obtain ⟨ihc, ihr⟩ := ih rest hrec
        by_cases hd : data.isEmpty
        · rw [if_pos hd] at hres
          cases hres
          have hts : (t == s) = false := by
            by_cases hts' : t = s
            · subst hts'
              rw [hft] at hs
              injection hs with hds
              subst hds
              exact absurd (List.isEmpty_iff.mp hd) hne
            · simp [hts']
          refine ⟨?_, ihr⟩
          rw [List.count_cons, hts]
          simpa using ihc
        · rw [if_neg hd] at hres
          cases hres
          refine ⟨?_, ?_⟩
          · rw [List.countP_cons, List.count_cons, ihc]
          · intro r hr hticker
            rcases List.mem_cons.mp hr with hh | ht
            · subst hh
              dsimp only at hticker ⊢
              subst hticker
              rw [hft] at hs
              injection hs with hds
              rw [hds]
            · exact ihr r ht hticker

/-- Witness for C10: `"AAPL"` listed twice yields two records. -/
theorem no_dedup_per_occurrence_witness :
    ([{ ticker := "AAPL", row := ticker_row demo_bars 2025 2025 },
      { ticker := "AAPL", row := ticker_row demo_bars 2025 2025 }] :
        List TickerResult).countP (fun r => r.ticker == "AAPL") =
      (["AAPL", "AAPL"] : List String).count "AAPL" :=
  (no_dedup_per_occurrence demo_fetch 2025 2025 ["AAPL", "AAPL"]
    [{ ticker := "AAPL", row := ticker_row demo_bars 2025 2025 },
     { ticker := "AAPL", row := ticker_row demo_bars 2025 2025 }]
    "AAPL" demo_bars (by rfl) (by rfl) (by decide)).1

/-- C7: for a non-empty record list the finalized table is row-sorted by
ticker ascending (whatever the input order was, the output keys are a sorted
permutation of the input keys), and the columns are the fixed interleaved
Jan Avg, Jan Hit, ..., Dec Avg, Dec Hit layout. -/
theorem finalize_sorted_and_columns (results : List TickerResult)
    (_hne : results ≠ []) :
    (finalize_table results).Pairwise (fun a b => a.1 ≤ b.1) ∧
      ((finalize_table results).map Prod.fst).Perm
        (results.map (fun r => r.ticker)) ∧
      ordered_columns =
        ["Jan Avg. Rtn (%)", "Jan Hit Rate (%)", "Feb Avg. Rtn (%)", "Feb Hit Rate (%)",
         "Mar Avg. Rtn (%)", "Mar Hit Rate (%)", "Apr Avg. Rtn (%)", "Apr Hit Rate (%)",
         "May Avg. Rtn (%)", "May Hit Rate (%)", "Jun Avg. Rtn (%)", "Jun Hit Rate (%)",
         "Jul Avg. Rtn (%)", "Jul Hit Rate (%)", "Aug Avg. Rtn (%)", "Aug Hit Rate (%)",
         "Sep Avg. Rtn (%)", "Sep Hit Rate (%)", "Oct Avg. Rtn (%)", "Oct Hit Rate (%)",
         "Nov Avg. Rtn (%)", "Nov Hit Rate (%)", "Dec Avg. Rtn (%)", "Dec Hit Rate (%)"] := by
  refine ⟨?_, ?_, by rfl⟩
  · unfold finalize_table
    have htrans : ∀ (a b c : String × List ℚ),
        (fun a b : String × List ℚ => decide (a.1 ≤ b.1)) a b →
          (fun a b : String × List ℚ => decide (a.1 ≤ b.1)) b c →
          (fun a b : String × List ℚ => decide (a.1 ≤ b.1)) a c := by
      intro a b c hab hbc
      simp only [decide_eq_true_eq] at hab hbc ⊢
      exact le_trans hab hbc
    have htotal : ∀ (a b : String × List ℚ),
        ((fun a b : String × List ℚ => decide (a.1 ≤ b.1)) a b ||
          (fun a b : String × List ℚ => decide (a.1 ≤ b.1)) b a) := by
      intro a b
      simp only [Bool.or_eq_true, decide_eq_true_eq]
      exact le_total a.1 b.1
    have hs := List.sorted_mergeSort htrans htotal
      (results.map (fun r =>
        (r.ticker, ordered_columns.map (fun c => round2 ((r.row.lookup c).getD 0)))))
    exact hs.imp (fun h => of_decide_eq_true h)
  · unfold finalize_table
    have hp := List.mergeSort_perm (results.map (fun r =>
        (r.ticker, ordered_columns.map (fun c => round2 ((r.row.lookup c).getD 0)))))
      (fun a b => decide (a.1 ≤ b.1))
    have hmap := hp.map Prod.fst
    simpa [List.map_map, Function.comp] using hmap

/-- Witness for C7 on two records given in reverse alphabetical order. -/
theorem finalize_sorted_and_columns_witness :
    (finalize_table
        [{ ticker := "Z", row := ticker_row demo_bars 2025 2025 },
         { ticker := "A", row := ticker_row demo_bars 2025 2025 }]).Pairwise
      (fun a b => a.1 ≤ b.1) :=
  (finalize_sorted_and_columns
    [{ ticker := "Z", row := ticker_row demo_bars 2025 2025 },
     { ticker := "A", row := ticker_row demo_bars 2025 2025 }]
    (by simp)).1

/-- C8 fails on the code: `analyze_all_months_performance` performs no
validation of `years` (lines 26-33 go straight from the date window to the
download loop). With `years = 0` the call does not fail with a validation
error: it attempts the fetch and returns a result built from the fetched data
(the single-year window `range(2025, 2026)`). -/
theorem years_not_validated_counterexample :
    analyze_all_months_performance demo_fetch ["AAPL"] 0 2025 =
      Except.ok [{ ticker := "AAPL", row := ticker_row demo_bars 2025 2025 }] := by
  rfl

/-- C8 amended: no lookback validation exists: even for zero or negative
`years` the per-ticker fetch is still attempted, so a provider failure on the
first ticker surfaces as that provider error (never as a prior validation
error), and with a working provider the run proceeds normally. -/
theorem years_not_validated (fetch : String → Except String (List DailyBar))
    (years today_year : Int) (s : String) (ts : List String) (e : String)
    (_hy : years ≤ 0) (herr : fetch s = Except.error e) :
    analyze_all_months_performance fetch (s :: ts) years today_year =
      Except.error e := by
  unfold analyze_all_months_performance
  simp only [analyze_tickers, herr]

/-- Witness for the amended C8 with a negative lookback. -/
theorem years_not_validated_witness :
    analyze_all_months_performance bad_fetch ["AAPL", "MSFT"] (-3) 2025 =
      Except.error "network error" :=
  years_not_validated bad_fetch (-3) 2025 "AAPL" ["MSFT"] "network error"
    (by norm_num) (by rfl)
